import Mathlib

/-!
Verification of the betting-companion session engine
(`src/engine/ladder.ts` and `src/engine/session.ts`).

Modelling conventions:
* JavaScript numbers carrying money/percentage values (`stakes`, `pnl`,
  `bankroll`, `recoveryTargetPct`, …) are modelled as rationals `ℚ`;
  all arithmetic the engine performs on them is exact in `ℚ`.
* Rung indices (`currentIndex`, crossover arithmetic) are modelled as `ℤ`,
  matching the unclamped integer arithmetic of the source (`index - 2` may
  go negative before clamping).  Ladder-array indices (`currentLadder`)
  are modelled as `ℕ`.
* `ladderTouches : Record<number, number>` is modelled as a total function
  `ℕ → ℕ`; `createInitialState` fills every key with 0, so the total
  function that is 0 everywhere agrees with the record on all its keys.
* Array accesses `ladder.stakes[i]` / `strategy.ladders[i]` are made total
  with a default (`List.getD` default 0, resp. the empty ladder); the
  defaults are only reachable from states the engine itself never produces.
* `throw` in `createLadder` is modelled with `Except String`.
-/

/-- Reason a session stopped (`StopReason` in the engine types; the type
declaration file is absent from the sources, values taken from
`session.ts`). -/
inductive StopReason where
  | profit_target
  | stop_loss
  | max_rounds
  | table_limit
  | bankroll_exhausted
  | user_stopped
deriving DecidableEq, Repr

/-- Modelled from the spec: the engine types file is missing from the
sources; §3 gives `pendingDecisionType` the values `bridging` and
`every_bet`. -/
inductive PendingDecisionType where
  | bridging
  | every_bet
deriving DecidableEq, Repr

/-- Modelled from the spec: the engine types file is missing from the
sources; §3 lists the bridging policies. -/
inductive BridgingPolicy where
  | advance_to_next_ladder_start
  | carry_over_index_delta
  | stop_at_table_limit
deriving DecidableEq, Repr

/-- Modelled from the spec: a bridging decision is one of the three named
values; `unrecognized` stands for any other value reaching the `default`
branch of the `switch` in `processBridgingDecision`. -/
inductive BridgingDecision where
  | stop_session
  | write_off
  | carry_over
  | unrecognized
deriving DecidableEq, Repr

/-- The `decisionMode` argument of `processBet`. -/
inductive DecisionMode where
  | at_bridging_only
  | every_bet
deriving DecidableEq, Repr

/-- `LadderSpec` from the engine: a name and an ordered list of stakes. -/
structure LadderSpec where
  name : String
  stakes : List ℚ
deriving DecidableEq, Repr

/-- `createLadder` from `ladder.ts`: throws when `stakes` is empty or
contains a non-positive value, otherwise returns the ladder. -/
def createLadder (name : String) (stakes : List ℚ) : Except String LadderSpec :=
  if stakes.length = 0 then
    Except.error "Ladder must have at least one stake"
  else if stakes.any (fun s => s ≤ 0) then
    Except.error "All stakes must be positive"
  else
    Except.ok { name := name, stakes := stakes }

/-- `getMaxIndex` from `ladder.ts`: `stakes.length - 1` (as an integer;
`-1` for the empty ladder, which `createLadder` rules out). -/
def getMaxIndex (ladder : LadderSpec) : ℤ :=
  (ladder.stakes.length : ℤ) - 1

/-- `getStake` from `ladder.ts`: the stake at `index` clamped into
`[0, maxIndex]`.  The out-of-range default 0 of `List.getD` is unreachable
for ladders produced by `createLadder` (non-empty stakes). -/
def getStake (ladder : LadderSpec) (index : ℤ) : ℚ :=
  let clampedIndex := max 0 (min index (getMaxIndex ladder))
  ladder.stakes.getD clampedIndex.toNat 0

/-- `isAtTop` from `ladder.ts`. -/
def isAtTop (ladder : LadderSpec) (index : ℤ) : Bool :=
  decide (getMaxIndex ladder ≤ index)

/-- `isAtBottom` from `ladder.ts`. -/
def isAtBottom (index : ℤ) : Bool :=
  decide (index ≤ 0)

/-- `StrategyConfig`.  Modelled from the spec for the field types (the
types file is missing from the sources): `ladders` is an ordered sequence
of ladders, `recoveryTargetPct` a number, `crossoverOffset` a
*non-negative integer* (spec §3). -/
structure StrategyConfig where
  ladders : List LadderSpec
  bridgingPolicy : BridgingPolicy
  recoveryTargetPct : ℚ
  crossoverOffset : ℕ
deriving DecidableEq, Repr

/-- `SessionConfig`.  Modelled from the spec for the field types:
`bankroll`, `profitTarget`, `stopLossAbs` numbers, `maxRounds` a positive
integer, `tableMax` an optional number. -/
structure SessionConfig where
  bankroll : ℚ
  profitTarget : ℚ
  stopLossAbs : ℚ
  maxRounds : ℕ
  tableMax : Option ℚ
deriving DecidableEq, Repr

/-- `SessionState` from the engine types (field list exactly as built by
`createInitialState` in `session.ts`). -/
structure SessionState where
  currentLadder : ℕ
  currentIndex : ℤ
  pnl : ℚ
  rounds : ℕ
  totalWagered : ℚ
  maxStake : ℚ
  maxDrawdown : ℚ
  peakPnl : ℚ
  ladderTouches : ℕ → ℕ
  topTouches : ℕ
  stopped : Bool
  stopReason : Option StopReason
  inRecovery : Bool
  recoveryTargetPnl : ℚ
  awaitingDecision : Bool
  pendingDecisionType : Option PendingDecisionType

/-- The ladder default used to totalise `strategy.ladders[i]`. -/
def emptyLadder : LadderSpec := { name := "", stakes := [] }

/-- Total version of the unguarded array access `strategy.ladders[i]`. -/
def ladderAt (strategy : StrategyConfig) (i : ℕ) : LadderSpec :=
  strategy.ladders.getD i emptyLadder

/-- `createInitialState` from `session.ts`.  The requested starting ladder
is clamped into `[0, ladders.length - 1]`. -/
def createInitialState (strategy : StrategyConfig) (startingLadder : ℤ) : SessionState :=
  let validStartingLadder : ℤ :=
    max 0 (min startingLadder ((strategy.ladders.length : ℤ) - 1))
  { currentLadder := validStartingLadder.toNat
    currentIndex := 0
    pnl := 0
    rounds := 0
    totalWagered := 0
    maxStake := 0
    maxDrawdown := 0
    peakPnl := 0
    ladderTouches := fun _ => 0
    topTouches := 0
    stopped := false
    stopReason := none
    inRecovery := false
    recoveryTargetPnl := 0
    awaitingDecision := false
    pendingDecisionType := none }

/-- `getCurrentStake` from `session.ts`. -/
def getCurrentStake (state : SessionState) (strategy : StrategyConfig) : ℚ :=
  getStake (ladderAt strategy state.currentLadder) state.currentIndex

/-- `getCurrentBankroll` from `session.ts`. -/
def getCurrentBankroll (state : SessionState) (config : SessionConfig) : ℚ :=
  config.bankroll + state.pnl

/-- `canAffordStake` from `session.ts`. -/
def canAffordStake (state : SessionState) (config : SessionConfig)
    (strategy : StrategyConfig) : Bool :=
  decide (getCurrentStake state strategy ≤ getCurrentBankroll state config)

/-- `exceedsTableMax` from `session.ts`.  `!config.tableMax` is a JS
falsiness test: it is true when `tableMax` is absent *or* equal to 0. -/
def exceedsTableMax (state : SessionState) (config : SessionConfig)
    (strategy : StrategyConfig) : Bool :=
  match config.tableMax with
  | none => false
  | some t => if t = 0 then false else decide (t < getCurrentStake state strategy)

/-- `handleBridging` from `session.ts` (loss at top of ladder). -/
def handleBridging (state : SessionState) (strategy : StrategyConfig) : SessionState :=
  let atLastLadder := state.currentLadder = strategy.ladders.length - 1
  let newState := { state with topTouches := state.topTouches + 1 }
  if strategy.bridgingPolicy = BridgingPolicy.stop_at_table_limit then
    { newState with stopped := true, stopReason := some StopReason.table_limit }
  else if atLastLadder then
    { newState with stopped := true, stopReason := some StopReason.table_limit }
  else
    { newState with
        awaitingDecision := true
        pendingDecisionType := some PendingDecisionType.bridging }

/-- `stepIndex` from `session.ts`: win moves down 2, loss moves up 1,
clamped; a loss at the top routes to `handleBridging`; after a normal step
a satisfied recovery target resets to ladder 0, index 0. -/
def stepIndex (state : SessionState) (strategy : StrategyConfig) (won : Bool) :
    SessionState :=
  let currentLadder := ladderAt strategy state.currentLadder
  let maxIndex := getMaxIndex currentLadder
  let atTopBeforeStep := maxIndex ≤ state.currentIndex
  let newIndex0 : ℤ := if won then state.currentIndex - 2 else state.currentIndex + 1
  if won = false ∧ atTopBeforeStep then
    handleBridging state strategy
  else
    let newIndex := max 0 (min newIndex0 maxIndex)
    let newState := { state with currentIndex := newIndex }
    if newState.inRecovery = true ∧ newState.recoveryTargetPnl ≤ newState.pnl then
      { newState with
          inRecovery := false
          recoveryTargetPnl := 0
          currentLadder := 0
          currentIndex := 0 }
    else
      newState

/-- `processBet` from `session.ts`.  Note that in the drawdown update the
source builds one object literal from `newState`, so *both* fields are
computed from the pre-update record: `maxDrawdown` uses the peak before
this round's update. -/
def processBet (state : SessionState) (config : SessionConfig)
    (strategy : StrategyConfig) (won : Bool) (decisionMode : DecisionMode) :
    SessionState :=
  if state.stopped = true ∨ state.awaitingDecision = true then
    state
  else
    let stake := getCurrentStake state strategy
    if canAffordStake state config strategy = false then
      { state with stopped := true, stopReason := some StopReason.bankroll_exhausted }
    else if exceedsTableMax state config strategy = true then
      { state with stopped := true, stopReason := some StopReason.table_limit }
    else
      let roundPnl := if won then stake else -stake
      let s1 : SessionState := { state with
        pnl := state.pnl + roundPnl
        rounds := state.rounds + 1
        totalWagered := state.totalWagered + stake
        maxStake := max state.maxStake stake
        ladderTouches := fun i =>
          if i = state.currentLadder then state.ladderTouches i + 1
          else state.ladderTouches i }
      let s2 : SessionState := { s1 with
        peakPnl := max s1.peakPnl s1.pnl
        maxDrawdown := max s1.maxDrawdown (s1.peakPnl - s1.pnl) }
      if config.profitTarget ≤ s2.pnl then
        { s2 with stopped := true, stopReason := some StopReason.profit_target }
      else if config.stopLossAbs ≤ -s2.pnl then
        { s2 with stopped := true, stopReason := some StopReason.stop_loss }
      else if config.maxRounds ≤ s2.rounds then
        { s2 with stopped := true, stopReason := some StopReason.max_rounds }
      else
        let s3 := stepIndex s2 strategy won
        if decisionMode = DecisionMode.every_bet ∧ s3.stopped = false ∧
            s3.awaitingDecision = false then
          { s3 with
              awaitingDecision := true
              pendingDecisionType := some PendingDecisionType.every_bet }
        else
          s3

/-- `executeCarryOver` from `session.ts`. -/
def executeCarryOver (state : SessionState) (strategy : StrategyConfig) :
    SessionState :=
  let s1 :=
    if state.inRecovery = false then
      { state with
          inRecovery := true
          recoveryTargetPnl :=
            if state.pnl < 0 then
              state.pnl + |state.pnl| * strategy.recoveryTargetPct
            else
              state.pnl }
    else
      state
  let nextLadder := ladderAt strategy (s1.currentLadder + 1)
  let maxNextIndex := getMaxIndex nextLadder
  let clampedOffset := min (strategy.crossoverOffset : ℤ) maxNextIndex
  { s1 with
      currentLadder := s1.currentLadder + 1
      currentIndex := clampedOffset
      awaitingDecision := false
      pendingDecisionType := none }

/-- `processBridgingDecision` from `session.ts`. -/
def processBridgingDecision (state : SessionState) (strategy : StrategyConfig)
    (decision : BridgingDecision) : SessionState :=
  if state.awaitingDecision = false then
    state
  else if state.pendingDecisionType = some PendingDecisionType.every_bet then
    if decision = BridgingDecision.stop_session then
      { state with
          stopped := true
          stopReason := some StopReason.user_stopped
          awaitingDecision := false
          pendingDecisionType := none }
    else
      { state with awaitingDecision := false, pendingDecisionType := none }
  else
    match decision with
    | BridgingDecision.stop_session =>
      { state with
          stopped := true
          stopReason := some StopReason.user_stopped
          awaitingDecision := false
          pendingDecisionType := none }
    | BridgingDecision.write_off =>
      { state with
          currentLadder := 0
          currentIndex := 0
          inRecovery := false
          recoveryTargetPnl := 0
          awaitingDecision := false
          pendingDecisionType := none }
    | BridgingDecision.carry_over => executeCarryOver state strategy
    | BridgingDecision.unrecognized => state

/-- A strategy is valid when it has at least one ladder and every ladder
has at least one stake (spec §3, enforced by `createLadder` /
`createStrategy`). -/
def ValidStrategy (strategy : StrategyConfig) : Prop :=
  strategy.ladders ≠ [] ∧ ∀ l ∈ strategy.ladders, l.stakes ≠ []

/-- States reachable from `createInitialState` by any sequence of
`processBet` and `processBridgingDecision` calls. -/
inductive Reachable (config : SessionConfig) (strategy : StrategyConfig) :
    SessionState → Prop where
  | init (startingLadder : ℤ) :
      Reachable config strategy (createInitialState strategy startingLadder)
  | bet (s : SessionState) (won : Bool) (mode : DecisionMode)
      (h : Reachable config strategy s) :
      Reachable config strategy (processBet s config strategy won mode)
  | decision (s : SessionState) (d : BridgingDecision)
      (h : Reachable config strategy s) :
      Reachable config strategy (processBridgingDecision s strategy d)

/-! ### Concrete ladders, strategies, configurations and states used to
instantiate the claim theorems -/

/-- Concrete 5-rung ladder used to instantiate the stepping theorem
(spec §8, scenario B). -/
def c2Ladder : LadderSpec := { name := "L1", stakes := [10, 20, 30, 40, 50] }

def c2Strat : StrategyConfig :=
  { ladders := [c2Ladder], bridgingPolicy := BridgingPolicy.carry_over_index_delta,
    recoveryTargetPct := 1/2, crossoverOffset := 0 }

def c2State : SessionState := { createInitialState c2Strat 0 with currentIndex := 3 }

def c3Strat : StrategyConfig :=
  { ladders := [{ name := "A", stakes := [1] }, { name := "B", stakes := [5, 10] }],
    bridgingPolicy := BridgingPolicy.carry_over_index_delta,
    recoveryTargetPct := 1/2, crossoverOffset := 0 }

def c3State : SessionState := createInitialState c3Strat 0

def c7Strat : StrategyConfig :=
  { ladders := [{ name := "L", stakes := [10] }],
    bridgingPolicy := BridgingPolicy.carry_over_index_delta,
    recoveryTargetPct := 1/2, crossoverOffset := 0 }

def c7Cfg : SessionConfig :=
  { bankroll := 1000, profitTarget := 5000, stopLossAbs := 5000,
    maxRounds := 5000, tableMax := none }

def c7State : SessionState := { createInitialState c7Strat 0 with pnl := -995 }

def c8Strat : StrategyConfig :=
  { ladders := [{ name := "A", stakes := [1] }, { name := "B", stakes := [2] }],
    bridgingPolicy := BridgingPolicy.carry_over_index_delta,
    recoveryTargetPct := 1/2, crossoverOffset := 0 }

def c8CexState : SessionState :=
  { createInitialState c8Strat 0 with
      currentLadder := 1, inRecovery := true, recoveryTargetPnl := -5,
      awaitingDecision := true,
      pendingDecisionType := some PendingDecisionType.every_bet }

def c8WitState : SessionState :=
  { createInitialState c8Strat 0 with
      currentLadder := 1, currentIndex := 0, pnl := -7, inRecovery := true,
      recoveryTargetPnl := -3, awaitingDecision := true,
      pendingDecisionType := some PendingDecisionType.bridging }

def c6Strat : StrategyConfig :=
  { ladders := [{ name := "A", stakes := [1] }, { name := "B", stakes := [2] }],
    bridgingPolicy := BridgingPolicy.carry_over_index_delta,
    recoveryTargetPct := 1/2, crossoverOffset := 0 }

def c6Cfg : SessionConfig :=
  { bankroll := 100, profitTarget := 50, stopLossAbs := 50,
    maxRounds := 10, tableMax := none }

def c6Stopped : SessionState :=
  { createInitialState c6Strat 0 with
      stopped := true
      stopReason := some StopReason.stop_loss }

def c6Awaiting : SessionState :=
  { createInitialState c6Strat 0 with
      awaitingDecision := true
      pendingDecisionType := some PendingDecisionType.bridging }

def c4Strat : StrategyConfig :=
  { ladders := [{ name := "A", stakes := [1] }, { name := "B", stakes := [1, 2, 3, 4] }],
    bridgingPolicy := BridgingPolicy.carry_over_index_delta,
    recoveryTargetPct := 1/2, crossoverOffset := 10 }

def c4State : SessionState :=
  { createInitialState c4Strat 0 with
      pnl := -100
      awaitingDecision := true
      pendingDecisionType := some PendingDecisionType.bridging }

def c1Strat : StrategyConfig :=
  { ladders := [{ name := "L1", stakes := [10, 20, 30, 40, 50] }],
    bridgingPolicy := BridgingPolicy.carry_over_index_delta,
    recoveryTargetPct := 1/2, crossoverOffset := 0 }

def c1Cfg : SessionConfig :=
  { bankroll := 10000, profitTarget := 500, stopLossAbs := 1000,
    maxRounds := 5000, tableMax := none }

def c1CexState : SessionState :=
  { createInitialState c1Strat 0 with maxDrawdown := -1 }

def c1State : SessionState := createInitialState c1Strat 0

def c9LongStakes : List ℚ := List.replicate 10001 1 ++ [2]

def c9LongLadder : LadderSpec := { name := "big", stakes := c9LongStakes }

def c9Ladder : LadderSpec := { name := "w", stakes := [5, 10, 15] }

/-- The inductive invariant maintained by every engine transition:
the current ladder index is in range, the rung index is within the
current ladder, `stopped` and `awaitingDecision` are mutually exclusive,
and an awaiting state carries a pending type — with a next ladder
available whenever a bridging decision is pending. -/
def SessionInv (strat : StrategyConfig) (s : SessionState) : Prop :=
  s.currentLadder < strat.ladders.length ∧
  0 ≤ s.currentIndex ∧
  s.currentIndex ≤ getMaxIndex (ladderAt strat s.currentLadder) ∧
  ¬(s.stopped = true ∧ s.awaitingDecision = true) ∧
  (s.awaitingDecision = true →
    s.pendingDecisionType = some PendingDecisionType.every_bet ∨
    (s.pendingDecisionType = some PendingDecisionType.bridging ∧
      s.currentLadder + 1 < strat.ladders.length))

def c5Strat : StrategyConfig :=
  { ladders := [{ name := "A", stakes := [1, 2] }, { name := "B", stakes := [5, 10] }],
    bridgingPolicy := BridgingPolicy.carry_over_index_delta,
    recoveryTargetPct := 1/2, crossoverOffset := 1 }

def c5Cfg : SessionConfig :=
  { bankroll := 100, profitTarget := 50, stopLossAbs := 50,
    maxRounds := 10, tableMax := none }

def c10Strat : StrategyConfig :=
  { ladders := [{ name := "A", stakes := [1] }, { name := "B", stakes := [5, 10] }],
    bridgingPolicy := BridgingPolicy.carry_over_index_delta,
    recoveryTargetPct := 1/2, crossoverOffset := 0 }

def c10Cfg : SessionConfig :=
  { bankroll := 100, profitTarget := 1000, stopLossAbs := 1000,
    maxRounds := 100, tableMax := none }

def c10State : SessionState :=
  processBet (createInitialState c10Strat 0) c10Cfg c10Strat false
    DecisionMode.at_bridging_only

/-! ## Claim C2: normal (non-bridging) ladder stepping -/

/-- **C2.** For a settled, non-stopping bet stepped at rung `k` of the
current ladder (`0 ≤ k ≤ maxIndex`), when the step is not a bridging one
(a win, or a loss strictly below the top): a win moves the index to
`max(0, k-2)`, a loss below the top moves it to `min(maxIndex, k+1)`, both
of which lie in `[0, maxIndex]`; and if after this normal step the state
is in recovery with `pnl ≥ recoveryTargetPnl`, the position is instead
fully reset to `inRecovery=false, recoveryTargetPnl=0, currentLadder=0,
currentIndex=0`, overriding the just-computed index. -/
theorem stepIndex_normal_step (s : SessionState) (strat : StrategyConfig) (won : Bool)
    (h0 : 0 ≤ s.currentIndex)
    (h1 : s.currentIndex ≤ getMaxIndex (ladderAt strat s.currentLadder))
    (h2 : won = true ∨ s.currentIndex < getMaxIndex (ladderAt strat s.currentLadder)) :
    (0 ≤ (if won then max 0 (s.currentIndex - 2)
          else min (getMaxIndex (ladderAt strat s.currentLadder)) (s.currentIndex + 1)) ∧
     (if won then max 0 (s.currentIndex - 2)
      else min (getMaxIndex (ladderAt strat s.currentLadder)) (s.currentIndex + 1)) ≤
        getMaxIndex (ladderAt strat s.currentLadder)) ∧
    stepIndex s strat won =
      (let stepped : SessionState := { s with currentIndex :=
          (if won then max 0 (s.currentIndex - 2)
           else min (getMaxIndex (ladderAt strat s.currentLadder)) (s.currentIndex + 1)) }
       if stepped.inRecovery = true ∧ stepped.recoveryTargetPnl ≤ stepped.pnl then
         { stepped with inRecovery := false, recoveryTargetPnl := 0,
                        currentLadder := 0, currentIndex := 0 }
       else stepped) :=
by
  have hmi0 : (0 : ℤ) ≤ getMaxIndex (ladderAt strat s.currentLadder) := le_trans h0 h1
  cases won with
  | true =>
    have harith : max 0 (min (s.currentIndex - 2)
        (getMaxIndex (ladderAt strat s.currentLadder))) = max 0 (s.currentIndex - 2) := by
      omega
    refine ⟨⟨?_, ?_⟩, ?_⟩
    · simp
    · simp
      omega
    · simp only [stepIndex]
      simp [harith]
  | false =>
    have hlt : s.currentIndex < getMaxIndex (ladderAt strat s.currentLadder) := by
      rcases h2 with h | h
      · exact absurd h (by simp)
      · exact h
    have hnotop : ¬ (getMaxIndex (ladderAt strat s.currentLadder) ≤ s.currentIndex) := by
      omega
    have harith : max 0 (min (s.currentIndex + 1)
        (getMaxIndex (ladderAt strat s.currentLadder))) =
        min (getMaxIndex (ladderAt strat s.currentLadder)) (s.currentIndex + 1) := by
      omega
    refine ⟨⟨?_, ?_⟩, ?_⟩
    · simp only [Bool.false_eq_true, if_false]
      omega
    · simp only [Bool.false_eq_true, if_false]
      omega
    · simp only [stepIndex]
      simp [hnotop, harith]

/-- Witness for `stepIndex_normal_step`: on the 5-rung ladder, a win at
rung 3 moves to rung 1. -/
theorem stepIndex_normal_step_witness :
    (0 ≤ c2State.currentIndex ∧
      c2State.currentIndex ≤ getMaxIndex (ladderAt c2Strat c2State.currentLadder)) ∧
    (stepIndex c2State c2Strat true).currentIndex = 1 := by
  have h0 : 0 ≤ c2State.currentIndex := by
    norm_num [c2State, createInitialState, c2Strat]
  have h1 : c2State.currentIndex ≤ getMaxIndex (ladderAt c2Strat c2State.currentLadder) := by
    norm_num [c2State, createInitialState, c2Strat, c2Ladder, ladderAt, getMaxIndex]
  have h := stepIndex_normal_step c2State c2Strat true h0 h1 (Or.inl rfl)
  refine ⟨⟨h0, h1⟩, ?_⟩
  have hproj := congrArg SessionState.currentIndex h.2
  simpa [c2State, c2Strat, c2Ladder, createInitialState, ladderAt, getMaxIndex,
    emptyLadder] using hproj

/-! ## Claim C3: bridging trigger on a loss at the top of the ladder -/

/-- **C3.** A loss while `currentIndex ≥ maxIndex` (evaluated before
stepping) routes to the bridging handler: `topTouches` increases by
exactly 1 in every branch; if the bridging policy is
`stop_at_table_limit`, or the current ladder is the last one, the session
stops with `stopReason = table_limit`; otherwise it pauses with
`awaitingDecision = true` and `pendingDecisionType = bridging`, leaving
`currentIndex` unchanged. -/
theorem stepIndex_loss_at_top_bridging (s : SessionState) (strat : StrategyConfig)
    (h : getMaxIndex (ladderAt strat s.currentLadder) ≤ s.currentIndex) :
    (stepIndex s strat false).topTouches = s.topTouches + 1 ∧
    (if strat.bridgingPolicy = BridgingPolicy.stop_at_table_limit ∨
        s.currentLadder = strat.ladders.length - 1 then
      stepIndex s strat false =
        { s with topTouches := s.topTouches + 1, stopped := true,
                 stopReason := some StopReason.table_limit }
    else
      stepIndex s strat false =
        { s with topTouches := s.topTouches + 1, awaitingDecision := true,
                 pendingDecisionType := some PendingDecisionType.bridging }) := by
  have hstep : stepIndex s strat false = handleBridging s strat := by
    simp [stepIndex, h]
  rw [hstep]
  unfold handleBridging
  by_cases hp : strat.bridgingPolicy = BridgingPolicy.stop_at_table_limit
  · simp [hp]
  · by_cases hl : s.currentLadder = strat.ladders.length - 1
    · simp [hp, hl]
    · simp [hp, hl]

/-- Witness for `stepIndex_loss_at_top_bridging`: a loss at the top of a
non-last one-rung ladder under `carry_over_index_delta` pauses for a
bridging decision and bumps `topTouches`. -/
theorem stepIndex_loss_at_top_bridging_witness :
    getMaxIndex (ladderAt c3Strat c3State.currentLadder) ≤ c3State.currentIndex ∧
    (stepIndex c3State c3Strat false).topTouches = c3State.topTouches + 1 ∧
    (stepIndex c3State c3Strat false).awaitingDecision = true := by
  have h : getMaxIndex (ladderAt c3Strat c3State.currentLadder) ≤ c3State.currentIndex := by
    norm_num [c3State, c3Strat, createInitialState, ladderAt, getMaxIndex]
  have hthm := stepIndex_loss_at_top_bridging c3State c3Strat h
  refine ⟨h, hthm.1, ?_⟩
  have hif := hthm.2
  rw [if_neg (by decide)] at hif
  rw [hif]

/-! ## Claim C7: unaffordable stake stops the session without settling -/

/-- **C7.** For an active state (not stopped, not awaiting a decision)
whose current stake is unaffordable (`bankroll + pnl < stake`),
`processBet` with either outcome returns the input state with only
`stopped := true` and `stopReason := bankroll_exhausted` changed — the
stake is not applied, so `pnl`, `rounds`, `totalWagered`, `maxStake`,
`ladderTouches`, `currentLadder`, `currentIndex` and every other field
are untouched. -/
theorem processBet_bankroll_exhausted (s : SessionState) (cfg : SessionConfig)
    (strat : StrategyConfig) (won : Bool) (mode : DecisionMode)
    (h1 : s.stopped = false) (h2 : s.awaitingDecision = false)
    (h3 : cfg.bankroll + s.pnl < getCurrentStake s strat) :
    processBet s cfg strat won mode =
      { s with stopped := true, stopReason := some StopReason.bankroll_exhausted } := by
  have hc : canAffordStake s cfg strat = false := by
    unfold canAffordStake getCurrentBankroll
    exact decide_eq_false (not_le.mpr h3)
  simp [processBet, h1, h2, hc]

/-- Witness for `processBet_bankroll_exhausted` (spec §8, scenario E):
bankroll 1000, `pnl = -995`, stake 10 — the next bet of any outcome stops
with `bankroll_exhausted`, leaving `pnl` and `rounds` unchanged. -/
theorem processBet_bankroll_exhausted_witness :
    (c7State.stopped = false ∧ c7State.awaitingDecision = false ∧
      c7Cfg.bankroll + c7State.pnl < getCurrentStake c7State c7Strat) ∧
    processBet c7State c7Cfg c7Strat true DecisionMode.at_bridging_only =
      { c7State with stopped := true,
                     stopReason := some StopReason.bankroll_exhausted } := by
  have h3 : c7Cfg.bankroll + c7State.pnl < getCurrentStake c7State c7Strat := by
    norm_num [c7Cfg, c7State, c7Strat, createInitialState, getCurrentStake, getStake,
      ladderAt, getMaxIndex]
  exact ⟨⟨rfl, rfl, h3⟩,
    processBet_bankroll_exhausted c7State c7Cfg c7Strat true DecisionMode.at_bridging_only
      rfl rfl h3⟩

/-! ## Claim C8: `write_off` resets the position

The claim as stated quantifies over both pending decision types, but when
`pendingDecisionType = every_bet` the processor treats any decision other
than `stop_session` — including `write_off` — as "continue", which only
clears the awaiting flag and leaves the position untouched. -/

/-- **C8 counterexample.** In an awaiting state with
`pendingDecisionType = every_bet` and `currentLadder = 1`, `write_off`
does *not* reset the position: the ladder stays at 1 and recovery mode
stays on, contradicting the claim's "regardless of whether
pendingDecisionType is bridging or every_bet". -/
theorem write_off_every_bet_cex :
    c8CexState.awaitingDecision = true ∧
    c8CexState.pendingDecisionType = some PendingDecisionType.every_bet ∧
    ¬ ((processBridgingDecision c8CexState c8Strat BridgingDecision.write_off).currentLadder = 0 ∧
       (processBridgingDecision c8CexState c8Strat BridgingDecision.write_off).inRecovery = false) := by
  refine ⟨rfl, rfl, ?_⟩
  intro hcontra
  have : (processBridgingDecision c8CexState c8Strat BridgingDecision.write_off).currentLadder = 1 := by
    decide
  omega

/-- **C8 (amended).** For every state with `awaitingDecision = true` whose
`pendingDecisionType` is *not* `every_bet`, `processBridgingDecision` with
`write_off` yields `currentLadder = 0`, `currentIndex = 0`,
`inRecovery = false`, `recoveryTargetPnl = 0` and clears the awaiting
flag, regardless of prior position, while `pnl` and all remaining fields
are left untouched.  (For `every_bet` pending, `write_off` is treated as
"continue" and only clears the awaiting flag.) -/
theorem write_off_resets_position (s : SessionState) (strat : StrategyConfig)
    (ha : s.awaitingDecision = true)
    (hp : s.pendingDecisionType ≠ some PendingDecisionType.every_bet) :
    processBridgingDecision s strat BridgingDecision.write_off =
      { s with currentLadder := 0, currentIndex := 0, inRecovery := false,
               recoveryTargetPnl := 0, awaitingDecision := false,
               pendingDecisionType := none } := by
  simp [processBridgingDecision, ha, hp]

/-- Witness for `write_off_resets_position`: a bridging-pending state on
ladder 1 in recovery is reset to the base ladder with `pnl` untouched. -/
theorem write_off_resets_position_witness :
    (c8WitState.awaitingDecision = true ∧
      c8WitState.pendingDecisionType ≠ some PendingDecisionType.every_bet) ∧
    processBridgingDecision c8WitState c8Strat BridgingDecision.write_off =
      { c8WitState with currentLadder := 0, currentIndex := 0, inRecovery := false,
                        recoveryTargetPnl := 0, awaitingDecision := false,
                        pendingDecisionType := none } := by
  refine ⟨⟨rfl, by decide⟩, ?_⟩
  exact write_off_resets_position c8WitState c8Strat rfl (by decide)

/-! ## Claim C6: stale or invalid calls are exact no-ops -/

/-- **C6.** `processBet` on a stopped or awaiting state is the identity;
`processBridgingDecision` on a non-awaiting state is the identity; and
`processBridgingDecision` on a state awaiting a *bridging* decision with
an unrecognized decision value is the identity. -/
theorem stale_calls_are_noops (s : SessionState) (cfg : SessionConfig)
    (strat : StrategyConfig) (won : Bool) (mode : DecisionMode)
    (d : BridgingDecision) :
    (s.stopped = true ∨ s.awaitingDecision = true →
      processBet s cfg strat won mode = s) ∧
    (s.awaitingDecision = false → processBridgingDecision s strat d = s) ∧
    (s.awaitingDecision = true →
      s.pendingDecisionType = some PendingDecisionType.bridging →
      processBridgingDecision s strat BridgingDecision.unrecognized = s) := by
  refine ⟨?_, ?_, ?_⟩
  · intro h
    unfold processBet
    rw [if_pos h]
  · intro h
    simp [processBridgingDecision, h]
  · intro ha hp
    simp [processBridgingDecision, ha, hp]

/-- Witness for `stale_calls_are_noops`: a stopped state absorbs
`processBet`, a non-awaiting state absorbs `processBridgingDecision`, and
a bridging-pending state absorbs an unrecognized decision. -/
theorem stale_calls_are_noops_witness :
    processBet c6Stopped c6Cfg c6Strat true DecisionMode.at_bridging_only = c6Stopped ∧
    processBridgingDecision (createInitialState c6Strat 0) c6Strat
      BridgingDecision.carry_over = createInitialState c6Strat 0 ∧
    processBridgingDecision c6Awaiting c6Strat BridgingDecision.unrecognized = c6Awaiting := by
  refine ⟨?_, ?_, ?_⟩
  · exact (stale_calls_are_noops c6Stopped c6Cfg c6Strat true DecisionMode.at_bridging_only
      BridgingDecision.unrecognized).1 (Or.inl rfl)
  · exact (stale_calls_are_noops (createInitialState c6Strat 0) c6Cfg c6Strat true
      DecisionMode.at_bridging_only BridgingDecision.carry_over).2.1 rfl
  · exact (stale_calls_are_noops c6Awaiting c6Cfg c6Strat true
      DecisionMode.at_bridging_only BridgingDecision.unrecognized).2.2 rfl (by decide)

/-! ## Claim C4: the `carry_over` decision -/

/-- **C4.** For a state awaiting a bridging decision on a non-last ladder,
`carry_over` enters recovery if not already in it (`recoveryTargetPnl`
becomes `pnl + |pnl| * recoveryTargetPct` when `pnl < 0` and `pnl`
otherwise), keeps `recoveryTargetPnl` unchanged when already in recovery,
advances `currentLadder` by 1, sets
`currentIndex = min(crossoverOffset, maxIndex of the new ladder)` and
clears the awaiting flag. -/
theorem carry_over_decision_spec (s : SessionState) (strat : StrategyConfig)
    (ha : s.awaitingDecision = true)
    (hp : s.pendingDecisionType = some PendingDecisionType.bridging)
    (_hl : s.currentLadder + 1 < strat.ladders.length) :
    processBridgingDecision s strat BridgingDecision.carry_over =
      { s with
          inRecovery := true
          recoveryTargetPnl :=
            (if s.inRecovery = true then s.recoveryTargetPnl
             else if s.pnl < 0 then s.pnl + |s.pnl| * strat.recoveryTargetPct
             else s.pnl)
          currentLadder := s.currentLadder + 1
          currentIndex := min (strat.crossoverOffset : ℤ)
            (getMaxIndex (ladderAt strat (s.currentLadder + 1)))
          awaitingDecision := false
          pendingDecisionType := none } := by
  have hco : processBridgingDecision s strat BridgingDecision.carry_over =
      executeCarryOver s strat := by
    simp [processBridgingDecision, ha, hp]
  rw [hco]
  unfold executeCarryOver
  by_cases hr : s.inRecovery = true
  · simp [hr]
  · simp only [Bool.not_eq_true] at hr
    simp [hr]

/-- Witness for `carry_over_decision_spec` (spec §8, scenarios C and D):
with `recoveryTargetPct = 0.5` and `pnl = -100` the carry-over sets
`recoveryTargetPnl = -50`, and with `crossoverOffset = 10` against a next
ladder of `maxIndex = 3` it clamps `currentIndex` to 3. -/
theorem carry_over_decision_spec_witness :
    (c4State.awaitingDecision = true ∧
      c4State.pendingDecisionType = some PendingDecisionType.bridging ∧
      c4State.currentLadder + 1 < c4Strat.ladders.length) ∧
    (processBridgingDecision c4State c4Strat BridgingDecision.carry_over).recoveryTargetPnl = -50 ∧
    (processBridgingDecision c4State c4Strat BridgingDecision.carry_over).currentIndex = 3 ∧
    (processBridgingDecision c4State c4Strat BridgingDecision.carry_over).currentLadder = 1 := by
  have h := carry_over_decision_spec c4State c4Strat rfl rfl (by decide)
  refine ⟨⟨rfl, rfl, by decide⟩, ?_, ?_, ?_⟩
  · have hproj := congrArg SessionState.recoveryTargetPnl h
    simp only [hproj]
    norm_num [c4State, c4Strat, createInitialState]
  · have hproj := congrArg SessionState.currentIndex h
    simp only [hproj]
    norm_num [c4State, c4Strat, createInitialState, ladderAt, getMaxIndex]
  · have hproj := congrArg SessionState.currentLadder h
    simp only [hproj]
    norm_num [c4State, c4Strat, createInitialState]

/-! ## Claim C1: settlement and stop-condition priority

The source computes the drawdown update from one object literal, so the
`maxDrawdown` formula reads the *pre-update* `peakPnl`.  The claim's
formula `max(maxDrawdown, new peakPnl - new pnl)` coincides with the code
whenever `maxDrawdown ≥ 0` (true of every state the engine produces,
since `maxDrawdown` starts at 0 and only ever grows), but differs on
states with a negative `maxDrawdown`. -/

/-- With a non-negative running drawdown, taking the peak before or after
this round's update makes no difference to the drawdown maximum. -/
theorem max_stale_peak_drawdown (d p x : ℚ) (hd : 0 ≤ d) :
    max d (max p x - x) = max d (p - x) := by
  rcases le_total x p with h | h
  · rw [max_eq_left h]
  · rw [max_eq_right h, sub_self, max_eq_left hd,
      max_eq_left ((by linarith : p - x ≤ 0).trans hd)]

/-- Shared reduction fact: the two decision modes are distinct. -/
theorem at_bridging_only_ne_every_bet :
    (DecisionMode.at_bridging_only = DecisionMode.every_bet) = False := by
  simp

/-- Shared reduction fact: `carry_over_index_delta` is not the
stop-at-table-limit policy. -/
theorem carry_over_ne_stop_policy :
    (BridgingPolicy.carry_over_index_delta = BridgingPolicy.stop_at_table_limit) = False := by
  simp

/-- **C1 (amended).** For every active state with affordable stake, stake
within the table max, and non-negative running `maxDrawdown` (as in every
state the engine produces), `processBet` settles the bet exactly as
specified — `pnl` changes by `±stake`, `rounds` and
`ladderTouches[currentLadder]` increase by 1, `totalWagered` by `stake`,
`maxStake` and `peakPnl` are maxed, and `maxDrawdown` becomes
`max(maxDrawdown, new peakPnl - new pnl)` — after which the stop
conditions are checked against the post-settlement values in the fixed
order profit_target, stop_loss, max_rounds; the first match stops the
session with that reason and skips the ladder step, and only when none
match is the ladder stepped (and the `every_bet` pause applied). -/
theorem processBet_settlement (s : SessionState) (cfg : SessionConfig)
    (strat : StrategyConfig) (won : Bool) (mode : DecisionMode)
    (h1 : s.stopped = false) (h2 : s.awaitingDecision = false)
    (h3 : getCurrentStake s strat ≤ cfg.bankroll + s.pnl)
    (h4 : exceedsTableMax s cfg strat = false)
    (h5 : 0 ≤ s.maxDrawdown) :
    processBet s cfg strat won mode =
      (let stake := getCurrentStake s strat
       let pnl2 := s.pnl + (if won then stake else -stake)
       let peak2 := max s.peakPnl pnl2
       let s2 : SessionState := { s with
         pnl := pnl2
         rounds := s.rounds + 1
         totalWagered := s.totalWagered + stake
         maxStake := max s.maxStake stake
         ladderTouches := fun i =>
           if i = s.currentLadder then s.ladderTouches i + 1 else s.ladderTouches i
         peakPnl := peak2
         maxDrawdown := max s.maxDrawdown (peak2 - pnl2) }
       if cfg.profitTarget ≤ s2.pnl then
         { s2 with stopped := true, stopReason := some StopReason.profit_target }
       else if cfg.stopLossAbs ≤ -s2.pnl then
         { s2 with stopped := true, stopReason := some StopReason.stop_loss }
       else if cfg.maxRounds ≤ s2.rounds then
         { s2 with stopped := true, stopReason := some StopReason.max_rounds }
       else
         let s3 := stepIndex s2 strat won
         if mode = DecisionMode.every_bet ∧ s3.stopped = false ∧
             s3.awaitingDecision = false then
           { s3 with awaitingDecision := true,
                     pendingDecisionType := some PendingDecisionType.every_bet }
         else s3) := by
  have haff : canAffordStake s cfg strat = true := by
    unfold canAffordStake getCurrentBankroll
    exact decide_eq_true h3
  unfold processBet
  rw [if_neg (by simp [h1, h2]), if_neg (by simp [haff]), if_neg (by simp [h4])]
  dsimp only
  rw [max_stale_peak_drawdown s.maxDrawdown s.peakPnl
    (s.pnl + (if won then getCurrentStake s strat else -getCurrentStake s strat)) h5]

/-- **C1 counterexample.** On an active, affordable, within-table-max
state whose `maxDrawdown` is `-1`, a winning bet leaves `maxDrawdown` at
`-1` (the code maxes against the *stale* peak, `0 - 10 = -10`), while the
claim's formula `max(maxDrawdown, new peakPnl - new pnl)` demands
`max(-1, 10 - 10) = 0`. -/
theorem processBet_stale_peak_cex :
    (c1CexState.stopped = false ∧ c1CexState.awaitingDecision = false ∧
      getCurrentStake c1CexState c1Strat ≤ c1Cfg.bankroll + c1CexState.pnl ∧
      exceedsTableMax c1CexState c1Cfg c1Strat = false) ∧
    (processBet c1CexState c1Cfg c1Strat true DecisionMode.at_bridging_only).maxDrawdown = -1 ∧
    max c1CexState.maxDrawdown
      (max c1CexState.peakPnl (c1CexState.pnl + getCurrentStake c1CexState c1Strat) -
        (c1CexState.pnl + getCurrentStake c1CexState c1Strat)) = 0 := by
  refine ⟨⟨rfl, rfl, ?_, rfl⟩, ?_, ?_⟩
  · norm_num [c1CexState, c1Strat, c1Cfg, createInitialState, getCurrentStake, getStake,
      ladderAt, getMaxIndex]
  · norm_num [processBet, c1CexState, c1Strat, c1Cfg, createInitialState, getCurrentStake,
      getStake, ladderAt, getMaxIndex, canAffordStake, getCurrentBankroll, exceedsTableMax,
      stepIndex, handleBridging, at_bridging_only_ne_every_bet, emptyLadder]
  · norm_num [c1CexState, c1Strat, c1Cfg, createInitialState, getCurrentStake, getStake,
      ladderAt, getMaxIndex]

/-- Witness for `processBet_settlement` (spec §8, scenario A): a win of
the 10-unit stake at rung 0 yields `pnl = 10`, `rounds = 1`,
`totalWagered = 10`, `currentIndex = 0`. -/
theorem processBet_settlement_witness :
    (c1State.stopped = false ∧ c1State.awaitingDecision = false ∧
      getCurrentStake c1State c1Strat ≤ c1Cfg.bankroll + c1State.pnl ∧
      exceedsTableMax c1State c1Cfg c1Strat = false ∧ 0 ≤ c1State.maxDrawdown) ∧
    (processBet c1State c1Cfg c1Strat true DecisionMode.at_bridging_only).pnl = 10 ∧
    (processBet c1State c1Cfg c1Strat true DecisionMode.at_bridging_only).rounds = 1 ∧
    (processBet c1State c1Cfg c1Strat true DecisionMode.at_bridging_only).totalWagered = 10 ∧
    (processBet c1State c1Cfg c1Strat true DecisionMode.at_bridging_only).currentIndex = 0 := by
  have h3 : getCurrentStake c1State c1Strat ≤ c1Cfg.bankroll + c1State.pnl := by
    norm_num [c1State, c1Strat, c1Cfg, createInitialState, getCurrentStake, getStake,
      ladderAt, getMaxIndex]
  have h5 : (0 : ℚ) ≤ c1State.maxDrawdown := by
    norm_num [c1State, createInitialState]
  have h := processBet_settlement c1State c1Cfg c1Strat true DecisionMode.at_bridging_only
    rfl rfl h3 rfl h5
  refine ⟨⟨rfl, rfl, h3, rfl, h5⟩, ?_, ?_, ?_, ?_⟩
  · rw [congrArg SessionState.pnl h]
    norm_num [c1State, c1Strat, c1Cfg, createInitialState, getCurrentStake, getStake,
      ladderAt, getMaxIndex, stepIndex, handleBridging, at_bridging_only_ne_every_bet,
      emptyLadder]
  · rw [congrArg SessionState.rounds h]
    norm_num [c1State, c1Strat, c1Cfg, createInitialState, getCurrentStake, getStake,
      ladderAt, getMaxIndex, stepIndex, handleBridging, at_bridging_only_ne_every_bet,
      emptyLadder]
  · rw [congrArg SessionState.totalWagered h]
    norm_num [c1State, c1Strat, c1Cfg, createInitialState, getCurrentStake, getStake,
      ladderAt, getMaxIndex, stepIndex, handleBridging, at_bridging_only_ne_every_bet,
      emptyLadder]
  · rw [congrArg SessionState.currentIndex h]
    norm_num [c1State, c1Strat, c1Cfg, createInitialState, getCurrentStake, getStake,
      ladderAt, getMaxIndex, stepIndex, handleBridging, at_bridging_only_ne_every_bet,
      emptyLadder]

/-! ## Claim C9: ladder construction and clamped stake lookup

The claim's "in particular `stakeAt(ladder, 10000) == stakeAt(ladder,
maxIndex)`" is an instance of the clamp property only when
`maxIndex ≤ 10000`; a (pathological) valid ladder with more than 10001
stakes refutes the universally quantified sentence. -/

/-- **C9 (amended).** `createLadder` succeeds exactly when the stakes
sequence is non-empty and all-positive, and then returns exactly the
given ladder; for every valid (non-empty) ladder `getStake` never fails:
it is clamp-idempotent, agrees with the configured sequence on in-range
indices, `getStake l (-5) = getStake l 0`, and — whenever
`maxIndex ≤ 10000` — `getStake l 10000 = getStake l maxIndex`. -/
theorem createLadder_getStake_spec :
    (∀ (name : String) (stakes : List ℚ),
      (∃ l, createLadder name stakes = Except.ok l) ↔
        stakes ≠ [] ∧ ∀ q ∈ stakes, 0 < q) ∧
    (∀ (name : String) (stakes : List ℚ) (l : LadderSpec),
      createLadder name stakes = Except.ok l → l = { name := name, stakes := stakes }) ∧
    (∀ l : LadderSpec, l.stakes ≠ [] →
      (∀ i : ℤ, getStake l i = getStake l (max 0 (min i (getMaxIndex l)))) ∧
      (∀ n : ℕ, n < l.stakes.length → getStake l (n : ℤ) = l.stakes.getD n 0) ∧
      getStake l (-5) = getStake l 0 ∧
      (getMaxIndex l ≤ 10000 → getStake l 10000 = getStake l (getMaxIndex l))) := by
  refine ⟨?_, ?_, ?_⟩
  · intro name stakes
    constructor
    · rintro ⟨l, hl⟩
      unfold createLadder at hl
      by_cases hlen : stakes.length = 0
      · rw [if_pos hlen] at hl
        exact absurd hl (by simp)
      · rw [if_neg hlen] at hl
        by_cases hany : stakes.any (fun s => s ≤ 0) = true
        · rw [if_pos hany] at hl
          exact absurd hl (by simp)
        · refine ⟨fun he => hlen (by simp [he]), ?_⟩
          intro q hq
          by_contra hq0
          exact hany (List.any_eq_true.mpr ⟨q, hq, by simpa using not_lt.mp hq0⟩)
    · rintro ⟨hne, hpos⟩
      refine ⟨{ name := name, stakes := stakes }, ?_⟩
      have hlen : ¬ stakes.length = 0 := by simpa using hne
      have hany : ¬ stakes.any (fun s => s ≤ 0) = true := by
        rw [List.any_eq_true]
        rintro ⟨q, hq, hq0⟩
        exact absurd (hpos q hq) (not_lt.mpr (by simpa using hq0))
      unfold createLadder
      rw [if_neg hlen, if_neg hany]
  · intro name stakes l hl
    unfold createLadder at hl
    by_cases hlen : stakes.length = 0
    · rw [if_pos hlen] at hl
      exact absurd hl (by simp)
    · rw [if_neg hlen] at hl
      by_cases hany : stakes.any (fun s => s ≤ 0) = true
      · rw [if_pos hany] at hl
        exact absurd hl (by simp)
      · rw [if_neg hany] at hl
        exact (Except.ok.inj hl).symm
  · intro l hne
    have hlenpos : 0 < l.stakes.length := List.length_pos.mpr hne
    have hmieq : getMaxIndex l = (l.stakes.length : ℤ) - 1 := rfl
    have hmi : 0 ≤ getMaxIndex l := by omega
    refine ⟨?_, ?_, ?_, ?_⟩
    · intro i
      simp only [getStake]
      have harith : max 0 (min (max 0 (min i (getMaxIndex l))) (getMaxIndex l)) =
          max 0 (min i (getMaxIndex l)) := by omega
      rw [harith]
    · intro n hn
      simp only [getStake]
      have harith : (max 0 (min (n : ℤ) (getMaxIndex l))).toNat = n := by omega
      rw [harith]
    · simp only [getStake]
      have h1 : (max 0 (min (-5 : ℤ) (getMaxIndex l))).toNat = 0 := by omega
      have h2 : (max 0 (min (0 : ℤ) (getMaxIndex l))).toNat = 0 := by omega
      rw [h1, h2]
    · intro hle
      simp only [getStake]
      have harith : (max 0 (min (10000 : ℤ) (getMaxIndex l))).toNat =
          (max 0 (min (getMaxIndex l) (getMaxIndex l))).toNat := by omega
      rw [harith]

/-- **C9 counterexample.** A valid ladder (non-empty, all stakes
positive) with 10002 rungs has `getStake` at index 10000 equal to the
10001st configured stake (1), not the stake at `maxIndex` (2), refuting
the claim's universally quantified
`stakeAt(ladder, 10000) == stakeAt(ladder, maxIndex)`. -/
theorem getStake_large_index_cex :
    c9LongLadder.stakes ≠ [] ∧ (∀ q ∈ c9LongLadder.stakes, 0 < q) ∧
    getStake c9LongLadder 10000 = 1 ∧
    getStake c9LongLadder (getMaxIndex c9LongLadder) = 2 ∧
    getStake c9LongLadder 10000 ≠ getStake c9LongLadder (getMaxIndex c9LongLadder) := by
  have hlen : c9LongLadder.stakes.length = 10002 := by
    rw [show c9LongLadder.stakes = c9LongStakes from rfl]
    rw [c9LongStakes, List.length_append, List.length_replicate]
    rfl
  have hg1 : getStake c9LongLadder 10000 = 1 := by
    simp only [getStake, getMaxIndex, hlen]
    push_cast
    have harith : (max 0 (min (10000 : ℤ) 10001)).toNat = 10000 := by omega
    rw [harith, show c9LongLadder.stakes = c9LongStakes from rfl, c9LongStakes,
      List.getD_eq_getElem?_getD,
      List.getElem?_append_left (by rw [List.length_replicate]; norm_num),
      List.getElem?_replicate]
    norm_num
  have hg2 : getStake c9LongLadder (getMaxIndex c9LongLadder) = 2 := by
    simp only [getStake, getMaxIndex, hlen]
    push_cast
    have harith : (max 0 (min (10001 : ℤ) 10001)).toNat = 10001 := by omega
    rw [harith, show c9LongLadder.stakes = c9LongStakes from rfl, c9LongStakes,
      List.getD_eq_getElem?_getD,
      List.getElem?_append_right (by rw [List.length_replicate]),
      List.length_replicate]
    norm_num
  refine ⟨?_, ?_, hg1, hg2, ?_⟩
  · intro h
    have := congrArg List.length h
    rw [hlen] at this
    exact absurd this (by norm_num)
  · intro q hq
    rw [show c9LongLadder.stakes = c9LongStakes from rfl, c9LongStakes] at hq
    rcases List.mem_append.mp hq with h | h
    · rw [List.eq_of_mem_replicate h]
      norm_num
    · rw [List.mem_singleton.mp h]
      norm_num
  · rw [hg1, hg2]
    norm_num

/-- Witness for `createLadder_getStake_spec`: the 3-rung ladder
`[5, 10, 15]` is constructible, and clamping holds at `-5` and `10000`. -/
theorem createLadder_getStake_spec_witness :
    c9Ladder.stakes ≠ [] ∧
    getStake c9Ladder (-5) = getStake c9Ladder 0 ∧
    (getMaxIndex c9Ladder ≤ 10000 ∧
      getStake c9Ladder 10000 = getStake c9Ladder (getMaxIndex c9Ladder)) ∧
    (∃ l, createLadder "w" [5, 10, 15] = Except.ok l) := by
  have hne : c9Ladder.stakes ≠ [] := by simp [c9Ladder]
  have h := createLadder_getStake_spec.2.2 c9Ladder hne
  refine ⟨hne, h.2.2.1, ⟨by decide, h.2.2.2 (by decide)⟩, ?_⟩
  refine (createLadder_getStake_spec.1 "w" [5, 10, 15]).mpr ⟨by simp, ?_⟩
  intro q hq
  fin_cases hq <;> norm_num

/-! ## Reachable-state invariants (claims C5 and C10) -/

/-- A valid strategy's in-range ladders are non-empty, so their maximum
index is non-negative. -/
theorem maxIndex_nonneg (strat : StrategyConfig) (hv : ValidStrategy strat)
    (i : ℕ) (hi : i < strat.ladders.length) :
    0 ≤ getMaxIndex (ladderAt strat i) := by
  obtain ⟨-, hall⟩ := hv
  have hmem : ladderAt strat i ∈ strat.ladders := by
    unfold ladderAt
    rw [List.getD_eq_getElem?_getD, List.getElem?_eq_getElem hi]
    exact List.getElem_mem hi
  have hne := hall _ hmem
  have hpos : 0 < (ladderAt strat i).stakes.length := List.length_pos.mpr hne
  unfold getMaxIndex
  omega

theorem inv_createInitialState (strat : StrategyConfig) (hv : ValidStrategy strat)
    (sl : ℤ) : SessionInv strat (createInitialState strat sl) := by
  have hlen : 0 < strat.ladders.length := List.length_pos.mpr hv.1
  have hcl : (max 0 (min sl ((strat.ladders.length : ℤ) - 1))).toNat <
      strat.ladders.length := by omega
  unfold SessionInv createInitialState
  dsimp only
  exact ⟨hcl, le_refl 0, maxIndex_nonneg strat hv _ hcl, by simp, by simp⟩

theorem inv_handleBridging (strat : StrategyConfig) (hv : ValidStrategy strat)
    (s : SessionState) (hinv : SessionInv strat s)
    (hstop : s.stopped = false) (hawait : s.awaitingDecision = false) :
    SessionInv strat (handleBridging s strat) := by
  obtain ⟨hA, hB, hC, hD, hE⟩ := hinv
  unfold handleBridging
  dsimp only
  by_cases hp : strat.bridgingPolicy = BridgingPolicy.stop_at_table_limit
  · rw [if_pos hp]
    exact ⟨hA, hB, hC, by simp [hawait], by simp [hawait]⟩
  · rw [if_neg hp]
    by_cases hl : s.currentLadder = strat.ladders.length - 1
    · rw [if_pos hl]
      exact ⟨hA, hB, hC, by simp [hawait], by simp [hawait]⟩
    · rw [if_neg hl]
      refine ⟨hA, hB, hC, by simp [hstop], ?_⟩
      intro _
      right
      refine ⟨rfl, ?_⟩
      have hlen : 0 < strat.ladders.length := List.length_pos.mpr hv.1
      dsimp only
      omega

theorem inv_stepIndex (strat : StrategyConfig) (hv : ValidStrategy strat)
    (s : SessionState) (hinv : SessionInv strat s)
    (hstop : s.stopped = false) (hawait : s.awaitingDecision = false) (won : Bool) :
    SessionInv strat (stepIndex s strat won) := by
  obtain ⟨hA, hB, hC, hD, hE⟩ := hinv
  unfold stepIndex
  dsimp only
  by_cases hbr : won = false ∧ getMaxIndex (ladderAt strat s.currentLadder) ≤ s.currentIndex
  · rw [if_pos hbr]
    exact inv_handleBridging strat hv s ⟨hA, hB, hC, hD, hE⟩ hstop hawait
  · rw [if_neg hbr]
    have hmi0 : 0 ≤ getMaxIndex (ladderAt strat s.currentLadder) :=
      maxIndex_nonneg strat hv _ hA
    by_cases hrec : s.inRecovery = true ∧ s.recoveryTargetPnl ≤ s.pnl
    · rw [if_pos hrec]
      have hlen : 0 < strat.ladders.length := List.length_pos.mpr hv.1
      exact ⟨hlen, le_refl 0, maxIndex_nonneg strat hv 0 hlen,
        by simp [hstop, hawait], by simp [hawait]⟩
    · rw [if_neg hrec]
      exact ⟨hA, le_max_left _ _, by dsimp only; omega, by simp [hstop, hawait],
        by simp [hawait]⟩

theorem inv_stepIndex_wrap (strat : StrategyConfig) (hv : ValidStrategy strat)
    (s2 : SessionState) (hinv2 : SessionInv strat s2)
    (hstop2 : s2.stopped = false) (hawait2 : s2.awaitingDecision = false)
    (won : Bool) (mode : DecisionMode) :
    SessionInv strat
      (let s3 := stepIndex s2 strat won
       if mode = DecisionMode.every_bet ∧ s3.stopped = false ∧
           s3.awaitingDecision = false then
         { s3 with awaitingDecision := true,
                   pendingDecisionType := some PendingDecisionType.every_bet }
       else s3) := by
  obtain ⟨hA3, hB3, hC3, hD3, hE3⟩ := inv_stepIndex strat hv s2 hinv2 hstop2 hawait2 won
  dsimp only
  split
  · next hcond =>
    exact ⟨hA3, hB3, hC3, by simp [hcond.2.1], fun _ => Or.inl rfl⟩
  · exact ⟨hA3, hB3, hC3, hD3, hE3⟩

theorem inv_processBet (strat : StrategyConfig) (hv : ValidStrategy strat)
    (cfg : SessionConfig) (s : SessionState) (hinv : SessionInv strat s)
    (won : Bool) (mode : DecisionMode) :
    SessionInv strat (processBet s cfg strat won mode) := by
  obtain ⟨hA, hB, hC, hD, hE⟩ := hinv
  unfold processBet
  by_cases hguard : s.stopped = true ∨ s.awaitingDecision = true
  · rw [if_pos hguard]
    exact ⟨hA, hB, hC, hD, hE⟩
  · rw [if_neg hguard]
    obtain ⟨hstop, hawait⟩ : s.stopped = false ∧ s.awaitingDecision = false := by
      simpa [not_or] using hguard
    dsimp only
    by_cases haff : canAffordStake s cfg strat = false
    · rw [if_pos haff]
      exact ⟨hA, hB, hC, by simp [hawait], by simp [hawait]⟩
    · rw [if_neg haff]
      by_cases htm : exceedsTableMax s cfg strat = true
      · rw [if_pos htm]
        exact ⟨hA, hB, hC, by simp [hawait], by simp [hawait]⟩
      · rw [if_neg htm]
        split
        all_goals
          split
          · exact ⟨hA, hB, hC, by simp [hawait], by simp [hawait]⟩
          · split
            · exact ⟨hA, hB, hC, by simp [hawait], by simp [hawait]⟩
            · split
              · exact ⟨hA, hB, hC, by simp [hawait], by simp [hawait]⟩
              · refine inv_stepIndex_wrap strat hv _ ?_ ?_ ?_ _ mode
                · exact ⟨hA, hB, hC, by simp [hstop, hawait], by simp [hawait]⟩
                · exact hstop
                · exact hawait

theorem inv_processBridgingDecision (strat : StrategyConfig) (hv : ValidStrategy strat)
    (s : SessionState) (hinv : SessionInv strat s) (d : BridgingDecision) :
    SessionInv strat (processBridgingDecision s strat d) := by
  obtain ⟨hA, hB, hC, hD, hE⟩ := hinv
  unfold processBridgingDecision
  by_cases haw : s.awaitingDecision = false
  · rw [if_pos haw]
    exact ⟨hA, hB, hC, hD, hE⟩
  · rw [if_neg haw]
    rw [Bool.not_eq_false] at haw
    have hstopF : s.stopped = false := by
      by_contra hc
      rw [Bool.not_eq_false] at hc
      exact hD ⟨hc, haw⟩
    by_cases hpend : s.pendingDecisionType = some PendingDecisionType.every_bet
    · rw [if_pos hpend]
      by_cases hd : d = BridgingDecision.stop_session
      · rw [if_pos hd]
        exact ⟨hA, hB, hC, by simp, by simp⟩
      · rw [if_neg hd]
        exact ⟨hA, hB, hC, by simp [hstopF], by simp⟩
    · rw [if_neg hpend]
      rcases hE haw with hp | ⟨hp, hnext⟩
      · exact absurd hp hpend
      cases d with
      | stop_session => exact ⟨hA, hB, hC, by simp, by simp⟩
      | write_off =>
        have hlen : 0 < strat.ladders.length := List.length_pos.mpr hv.1
        exact ⟨hlen, le_refl 0, maxIndex_nonneg strat hv 0 hlen,
          by simp [hstopF], by simp⟩
      | carry_over =>
        unfold executeCarryOver
        have hnn : 0 ≤ getMaxIndex (ladderAt strat (s.currentLadder + 1)) :=
          maxIndex_nonneg strat hv _ hnext
        by_cases hrec : s.inRecovery = false
        · rw [if_pos hrec]
          dsimp only
          refine ⟨hnext, ?_, ?_, by simp [hstopF], by simp⟩
          · dsimp only
            omega
          · dsimp only
            omega
        · rw [if_neg hrec]
          dsimp only
          refine ⟨hnext, ?_, ?_, by simp [hstopF], by simp⟩
          · dsimp only
            omega
          · dsimp only
            omega
      | unrecognized => exact ⟨hA, hB, hC, hD, hE⟩

/-- Every reachable state satisfies the inductive invariant. -/
theorem reachable_inv (cfg : SessionConfig) (strat : StrategyConfig)
    (hv : ValidStrategy strat) (s : SessionState)
    (hr : Reachable cfg strat s) : SessionInv strat s := by
  induction hr with
  | init sl => exact inv_createInitialState strat hv sl
  | bet s won mode h ih => exact inv_processBet strat hv cfg s ih won mode
  | decision s d h ih => exact inv_processBridgingDecision strat hv s ih d

/-! ## Claim C5: invariants of every reachable state -/

/-- **C5.** In every state reachable from `createInitialState` by any
sequence of `processBet` / `processBridgingDecision` calls over a valid
strategy (non-empty ladder list, every ladder non-empty): `currentIndex`
lies in `[0, maxIndex of the current ladder]`, `stopped` and
`awaitingDecision` are never both true, and once `stopped` holds every
further `processBet` or `processBridgingDecision` call returns the state
unchanged. -/
theorem reachable_state_invariants (cfg : SessionConfig) (strat : StrategyConfig)
    (hv : ValidStrategy strat) (s : SessionState) (hr : Reachable cfg strat s) :
    (0 ≤ s.currentIndex ∧
      s.currentIndex ≤ getMaxIndex (ladderAt strat s.currentLadder)) ∧
    ¬(s.stopped = true ∧ s.awaitingDecision = true) ∧
    (s.stopped = true →
      (∀ (won : Bool) (mode : DecisionMode), processBet s cfg strat won mode = s) ∧
      (∀ d : BridgingDecision, processBridgingDecision s strat d = s)) := by
  obtain ⟨hA, hB, hC, hD, hE⟩ := reachable_inv cfg strat hv s hr
  refine ⟨⟨hB, hC⟩, hD, ?_⟩
  intro hstop
  have hawait : s.awaitingDecision = false := by
    by_contra hc
    rw [Bool.not_eq_false] at hc
    exact hD ⟨hstop, hc⟩
  constructor
  · intro won mode
    unfold processBet
    rw [if_pos (Or.inl hstop)]
  · intro d
    unfold processBridgingDecision
    rw [if_pos hawait]

/-- Witness for `reachable_state_invariants` at the initial state of a
concrete two-ladder strategy. -/
theorem reachable_state_invariants_witness :
    ValidStrategy c5Strat ∧
    ((0 ≤ (createInitialState c5Strat 0).currentIndex ∧
       (createInitialState c5Strat 0).currentIndex ≤
         getMaxIndex (ladderAt c5Strat (createInitialState c5Strat 0).currentLadder)) ∧
     ¬((createInitialState c5Strat 0).stopped = true ∧
        (createInitialState c5Strat 0).awaitingDecision = true) ∧
     ((createInitialState c5Strat 0).stopped = true →
       (∀ (won : Bool) (mode : DecisionMode),
         processBet (createInitialState c5Strat 0) c5Cfg c5Strat won mode =
           createInitialState c5Strat 0) ∧
       (∀ d : BridgingDecision,
         processBridgingDecision (createInitialState c5Strat 0) c5Strat d =
           createInitialState c5Strat 0))) := by
  have hv : ValidStrategy c5Strat := by
    constructor
    · simp [c5Strat]
    · intro l hl
      fin_cases hl <;> simp
  exact ⟨hv, reachable_state_invariants c5Cfg c5Strat hv _ (Reachable.init 0)⟩

/-! ## Claim C10: the carry-over ladder access is always in bounds -/

/-- **C10.** In every reachable state awaiting a bridging decision,
`currentLadder` is strictly below the last ladder index, so the unguarded
access `ladders[currentLadder + 1]` inside the carry-over path is in
bounds: in the total embedding, `ladders[currentLadder + 1]?` is `some`
(the `none` branch is unreachable for reachable states). -/
theorem bridging_next_ladder_in_bounds (cfg : SessionConfig) (strat : StrategyConfig)
    (hv : ValidStrategy strat) (s : SessionState) (hr : Reachable cfg strat s)
    (ha : s.awaitingDecision = true)
    (hp : s.pendingDecisionType = some PendingDecisionType.bridging) :
    s.currentLadder + 1 < strat.ladders.length ∧
    (strat.ladders[s.currentLadder + 1]?).isSome = true := by
  obtain ⟨hA, hB, hC, hD, hE⟩ := reachable_inv cfg strat hv s hr
  rcases hE ha with hp2 | ⟨-, hnext⟩
  · rw [hp] at hp2
    exact absurd hp2 (by simp)
  · refine ⟨hnext, ?_⟩
    rw [List.getElem?_eq_getElem hnext]
    rfl

/-- Witness for `bridging_next_ladder_in_bounds`: losing at the top of
the first (one-rung) ladder reaches a bridging-pending state whose next
ladder access is in bounds. -/
theorem bridging_next_ladder_in_bounds_witness :
    (ValidStrategy c10Strat ∧ c10State.awaitingDecision = true ∧
      c10State.pendingDecisionType = some PendingDecisionType.bridging) ∧
    c10State.currentLadder + 1 < c10Strat.ladders.length ∧
    (c10Strat.ladders[c10State.currentLadder + 1]?).isSome = true := by
  have hv : ValidStrategy c10Strat := by
    constructor
    · simp [c10Strat]
    · intro l hl
      fin_cases hl <;> simp
  have hr : Reachable c10Cfg c10Strat c10State := by
    unfold c10State
    exact Reachable.bet _ false DecisionMode.at_bridging_only (Reachable.init 0)
  have ha : c10State.awaitingDecision = true := by
    norm_num [c10State, processBet, createInitialState, getCurrentStake, getStake,
      ladderAt, getMaxIndex, canAffordStake, getCurrentBankroll, exceedsTableMax,
      stepIndex, handleBridging, at_bridging_only_ne_every_bet,
      carry_over_ne_stop_policy, emptyLadder, c10Strat, c10Cfg]
  have hp : c10State.pendingDecisionType = some PendingDecisionType.bridging := by
    norm_num [c10State, processBet, createInitialState, getCurrentStake, getStake,
      ladderAt, getMaxIndex, canAffordStake, getCurrentBankroll, exceedsTableMax,
      stepIndex, handleBridging, at_bridging_only_ne_every_bet,
      carry_over_ne_stop_policy, emptyLadder, c10Strat, c10Cfg]
  exact ⟨⟨hv, ha, hp⟩,
    bridging_next_ladder_in_bounds c10Cfg c10Strat hv c10State hr ha hp⟩
